import Mathlib

/-!
Shallow embedding of the reactive entity/context runtime of this repository
(crates/gpui2: `app/async_context.rs`, `app/model_context.rs`) together with
the parts of the surrounding `AppContext` runtime state that those files
operate on.  Pure data is modelled directly; Rust's `&mut` state is modelled
by explicit state passing (`AppContext` in, `AppContext` out); Rust panics
(`unwrap`, `expect`) are modelled as the `Fatal` error of an `Except`;
fallible bridge operations return `Except BridgeErr`.

Type erasure (`Box<dyn Any>`) is modelled by `AnyVal`: a runtime type tag
plus an (abstract) payload; a downcast succeeds exactly when the tag matches.
-/

set_option autoImplicit false

namespace Gpui

/-- Entity identifiers (process-unique, monotonically issued). -/
abbrev EntityId := Nat

/-- Window identifiers (`AnyWindowHandle.id`). -/
abbrev WindowId := Nat

/-- A runtime type tag, modelling `TypeId` for type-erased storage. -/
abbrev TypeTag := Nat

/-- A type-erased boxed value (`Box<dyn Any>`): a type tag plus a payload. -/
structure AnyVal where
  tag : TypeTag
  data : Nat
deriving DecidableEq, Repr

/-- An entity slot in the store: the type-erased value (`none` while the
entity has been temporarily taken out, i.e. the slot is *absent*) plus the
strong-handle reference count. -/
structure EntitySlot where
  value : Option AnyVal
  refCount : Nat
deriving DecidableEq, Repr

/-- One pending effect of the deferred effect queue. The `Emit` payload is
type-erased; `defer` carries the closure abstractly, by an identifier. -/
inductive Effect where
  | notify (emitter : EntityId)
  | emit (emitter : EntityId) (event : AnyVal)
  | release (id : EntityId)
  | defer (closureId : Nat)
deriving DecidableEq, Repr

/-- An observer registration, as captured by `ModelContext::observe`: only
the two *weak* (downgraded) handles — recorded as bare ids — plus an
identifier standing for the user's `on_notify` closure. -/
structure ObserverEntry where
  thisId : EntityId
  observedId : EntityId
  callbackId : Nat
deriving DecidableEq, Repr

/-- A subscriber registration, as captured by `ModelContext::subscribe`:
weak handles to both sides, the event type tag the stored callback downcasts
the payload to (`E::Event`), and an identifier for the `on_event` closure. -/
structure SubscriberEntry where
  thisId : EntityId
  observedId : EntityId
  eventTag : TypeTag
  callbackId : Nat
deriving DecidableEq, Repr

/-- Association-list lookup keyed by `Nat` ids. -/
def alookup {β : Type} : List (Nat × β) → Nat → Option β
  | [], _ => none
  | (k, v) :: rest, key => if k = key then some v else alookup rest key

/-- Remove every binding of `key` from an association list. -/
def aremove {β : Type} : List (Nat × β) → Nat → List (Nat × β)
  | [], _ => []
  | (k, v) :: rest, key =>
      if k = key then aremove rest key else (k, v) :: aremove rest key

/-- Rewrite the `value` field of the slot bound to `id` (other slots and the
binding structure are untouched). -/
def setValue : List (EntityId × EntitySlot) → EntityId → Option AnyVal →
    List (EntityId × EntitySlot)
  | [], _, _ => []
  | (k, s) :: rest, id, v =>
      if k = id then (k, { s with value := v }) :: setValue rest id v
      else (k, s) :: setValue rest id v

@[simp] theorem alookup_nil {β : Type} (key : Nat) :
    alookup ([] : List (Nat × β)) key = none := rfl

@[simp] theorem alookup_cons {β : Type} (k : Nat) (v : β) (rest : List (Nat × β)) (key : Nat) :
    alookup ((k, v) :: rest) key = if k = key then some v else alookup rest key := rfl

theorem alookup_aremove {β : Type} (l : List (Nat × β)) (key : Nat) :
    alookup (aremove l key) key = none := by
  induction l with
  | nil => rfl
  | cons p rest ih =>
      obtain ⟨k, v⟩ := p
      by_cases h : k = key <;> simp [aremove, h, ih]

theorem alookup_aremove_ne {β : Type} (l : List (Nat × β)) (key other : Nat)
    (h : other ≠ key) : alookup (aremove l key) other = alookup l other := by
  induction l with
  | nil => rfl
  | cons p rest ih =>
      obtain ⟨k, v⟩ := p
      by_cases hk : k = key
      · have hko : k ≠ other := by rw [hk]; exact h.symm
        simp [aremove, hk, hko, h.symm, ih]
      · simp [aremove, hk, ih]

theorem alookup_setValue (es : List (EntityId × EntitySlot)) (id : EntityId)
    (v : Option AnyVal) :
    alookup (setValue es id v) id = (alookup es id).map (fun s => { s with value := v }) := by
  induction es with
  | nil => rfl
  | cons p rest ih =>
      obtain ⟨k, s⟩ := p
      by_cases h : k = id <;> simp [setValue, h, ih]

theorem alookup_setValue_ne (es : List (EntityId × EntitySlot)) (id other : EntityId)
    (v : Option AnyVal) (h : id ≠ other) :
    alookup (setValue es id v) other = alookup es other := by
  induction es with
  | nil => rfl
  | cons p rest ih =>
      obtain ⟨k, s⟩ := p
      by_cases hk : k = id
      · have hko : k ≠ other := by rw [hk]; exact h
        simp [setValue, hk, hko, h, ih]
      · simp [setValue, hk, ih]

/-- The shared runtime state aggregate (`AppContext`): entity store, global
table, effect queue, subscription registries, live windows, pending frame
callbacks, and the redraw-dirty flag. -/
structure AppContext where
  entities : List (EntityId × EntitySlot)
  nextId : EntityId
  globals : List (TypeTag × Nat)
  effects : List Effect
  observers : List (EntityId × ObserverEntry)
  eventHandlers : List (EntityId × SubscriberEntry)
  releaseHandlers : List (EntityId × Nat)
  windows : List WindowId
  frameCallbacks : List (WindowId × Nat)
  dirty : Bool
deriving DecidableEq, Repr

/-- Fatal invariant violations: conditions the Rust code treats as a panic
(`unwrap` / `expect`), never as a recoverable error. -/
inductive Fatal where
  | noSuchEntity
  | absentSlot
  | invalidEventType
  | missingGlobal
deriving DecidableEq, Repr

/-- Recoverable environmental failures surfaced by the async bridge
(`anyhow` errors in the Rust source). -/
inductive BridgeErr where
  | appWasReleased
  | windowNotFound
deriving DecidableEq, Repr

/-- The human-readable condition carried by a bridge error
(`anyhow!("app was released")` in `async_context.rs`). -/
def BridgeErr.message : BridgeErr → String
  | .appWasReleased => "app was released"
  | .windowNotFound => "window not found"

/-- Is the entity still present in the store (any slot bound to `id`)?  This
is what a `WeakHandle` upgrade checks. -/
def AppContext.entityLive (app : AppContext) (id : EntityId) : Bool :=
  (alookup app.entities id).isSome

/-- `WeakHandle::upgrade`: succeeds, yielding a strong handle (recorded by
its id), iff the entity is still present in the store.  The transient
reference-count increment of the returned handle is net-zero across the
scopes modelled here (the upgraded handle is dropped at the end of the
dispatch closure), so the count is not threaded. -/
def WeakHandle.upgrade (app : AppContext) (id : EntityId) : Option EntityId :=
  if app.entityLive id then some id else none

/-- Modelled from the spec: `AppContext::refresh` forces the pending
layout/redraw-equivalent global state to be marked dirty (§4.2); the
function itself is not under `src/`, only its callers are. -/
def AppContext.refresh (app : AppContext) : AppContext :=
  { app with dirty := true }

/-- Modelled from the spec: `AppContext::push_effect` appends one effect to
the ordered, append-only effect queue (§2, §3: effects are appended in
creation order); the function itself is not under `src/`. -/
def AppContext.push_effect (app : AppContext) (e : Effect) : AppContext :=
  { app with effects := app.effects ++ [e] }

/-- Modelled from the spec: `AppContext::entity` allocates a fresh id,
constructs the value with a fresh context scoped to that id, and inserts it
with one strong handle (§3 Lifecycle); the function itself is not under
`src/`.  The builder receives the runtime state and the fresh id and returns
the built value together with the state it left behind. -/
def AppContext.entity (app : AppContext)
    (build : AppContext → EntityId → AnyVal × AppContext) : EntityId × AppContext :=
  let id := app.nextId
  let app1 := { app with nextId := id + 1 }
  let (v, app2) := build app1 id
  (id, { app2 with entities := app2.entities ++ [(id, ⟨some v, 1⟩)] })

/-- Modelled from the spec and from the commented-out `ModelContext::update`
in `model_context.rs`: `AppContext::update_entity` takes the entity's value
out of its slot (marking the slot absent), runs the update closure with the
state in that taken-out configuration, then replaces the value into the
slot (§4.2); the function itself is not under `src/`.  Finding no slot, or
an absent slot, is a fatal invariant violation (the `unwrap` calls of the
commented-out source).  The closure receives the taken value and the state
and returns the new value, the new state, and its result. -/
def AppContext.update_entity {R : Type} (app : AppContext) (id : EntityId)
    (f : AnyVal → AppContext → AnyVal × AppContext × R) : Except Fatal (R × AppContext) :=
  match alookup app.entities id with
  | none => .error .noSuchEntity
  | some slot =>
    match slot.value with
    | none => .error .absentSlot
    | some v =>
      let app1 := { app with entities := setValue app.entities id none }
      let (v2, app2, r) := f v app1
      match alookup app2.entities id with
      | none => .error .noSuchEntity
      | some _ => .ok (r, { app2 with entities := setValue app2.entities id (some v2) })

/-- Modelled from the spec: `AppContext::global` resolves the singleton of
the given type, a fatal condition if no such global exists; the function
itself is not under `src/`. -/
def AppContext.global (app : AppContext) (tag : TypeTag) : Except Fatal Nat :=
  match alookup app.globals tag with
  | none => .error .missingGlobal
  | some g => .ok g

/-- Modelled from the spec: `AppContext::pop_global` removes the global of
the given type from storage and hands it out (the lease step of the
absent-then-restore discipline, §4.2); missing global is fatal; the function
itself is not under `src/`. -/
def AppContext.pop_global (app : AppContext) (tag : TypeTag) :
    Except Fatal (Nat × AppContext) :=
  match alookup app.globals tag with
  | none => .error .missingGlobal
  | some g => .ok (g, { app with globals := aremove app.globals tag })

/-- Modelled from the spec: `AppContext::push_global` restores (reinserts)
the global of the given type into storage; the function itself is not under
`src/`. -/
def AppContext.push_global (app : AppContext) (tag : TypeTag) (g : Nat) : AppContext :=
  { app with globals := (tag, g) :: aremove app.globals tag }

/-- Modelled from the spec: dropping the last strong handle synchronously
removes the slot and enqueues a `Release` effect (§4.1 Side effects); with
other strong handles remaining the count is merely decremented; the
function itself is not under `src/`. -/
def AppContext.dropHandle (app : AppContext) (id : EntityId) : AppContext :=
  match alookup app.entities id with
  | none => app
  | some slot =>
    if slot.refCount ≤ 1 then
      { app with
          entities := aremove app.entities id,
          effects := app.effects ++ [.release id] }
    else
      { app with
          entities :=
            (app.entities.map fun p =>
              if p.1 = id then (p.1, { p.2 with refCount := p.2.refCount - 1 }) else p) }

/-- Modelled from the spec: `WindowContext::on_next_frame` registers a
callback (recorded abstractly by id) to run on the window's next frame
(§6); the function itself is not under `src/`. -/
def AppContext.on_next_frame (app : AppContext) (w : WindowId) (cb : Nat) : AppContext :=
  { app with frameCallbacks := app.frameCallbacks ++ [(w, cb)] }

/-- Modelled from the spec: `AppContext::read_window` routes a read closure
through the window-specific entry point, failing with a recoverable error
if the window no longer exists (§4.5); the function itself is not under
`src/`. -/
def AppContext.read_window {R : Type} (app : AppContext) (w : WindowId)
    (f : AppContext → WindowId → R) : Except BridgeErr R :=
  if w ∈ app.windows then .ok (f app w) else .error .windowNotFound

/-- Modelled from the spec: `AppContext::update_window` routes an update
closure through the window-specific entry point, failing with a recoverable
error if the window no longer exists (§4.5); the function itself is not
under `src/`. -/
def AppContext.update_window {R : Type} (app : AppContext) (w : WindowId)
    (f : AppContext → WindowId → R × AppContext) : Except BridgeErr (R × AppContext) :=
  if w ∈ app.windows then
    let (r, app1) := f app w
    .ok (r, app1)
  else .error .windowNotFound

/-- Like `AppContext.update_window`, for window closures whose body may hit
a fatal invariant violation (used by the window-routed entity and global
updates below). -/
def AppContext.update_window_f {R : Type} (app : AppContext) (w : WindowId)
    (f : AppContext → WindowId → Except Fatal (R × AppContext)) :
    Except BridgeErr (Except Fatal (R × AppContext)) :=
  if w ∈ app.windows then .ok (f app w) else .error .windowNotFound

/-- Like `AppContext.read_window`, for window closures whose body may hit a
fatal invariant violation. -/
def AppContext.read_window_f {R : Type} (app : AppContext) (w : WindowId)
    (f : AppContext → WindowId → Except Fatal R) :
    Except BridgeErr (Except Fatal R) :=
  if w ∈ app.windows then .ok (f app w) else .error .windowNotFound

/-!
`ModelContext` operations (from `model_context.rs`).  A `ModelContext<T>`
is a mutable borrow of the `AppContext` plus the id of the entity being
updated (`entity_id`) and `T`'s phantom type tag; here the borrow is the
explicitly passed state and the identity data are extra arguments.
-/

/-- `ModelContext::handle` (from src): the weak handle of the entity this
context is scoped to — just its id. -/
def ModelContext.handle (selfId : EntityId) : EntityId :=
  selfId

/-- `ModelContext::notify` (from src): push a `Notify` effect attributed to
the context's own entity id. -/
def ModelContext.notify (app : AppContext) (selfId : EntityId) : AppContext :=
  app.push_effect (.notify selfId)

/-- `ModelContext::emit` (from src): push an `Emit` effect attributed to the
context's own entity id, carrying the boxed (type-erased) event.  In the
source this is only offered when `T : EventEmitter`, i.e. when `T` declares
an event payload type; well-typed callers therefore only ever pass events
whose tag is the event tag `T` declares. -/
def ModelContext.emit (app : AppContext) (selfId : EntityId) (event : AnyVal) : AppContext :=
  app.push_effect (.emit selfId event)

/-- `ModelContext::observe` (from src): downgrade both the observing entity
(`self.handle()`) and the observed handle to weak references and insert an
entry, keyed by the observed id, into the observers registry.  The entry
records only the two ids and (abstractly) the `on_notify` closure. -/
def ModelContext.observe (app : AppContext) (selfId : EntityId) (observed : EntityId)
    (callbackId : Nat) : AppContext :=
  { app with
      observers := app.observers ++ [(observed, ⟨selfId, observed, callbackId⟩)] }

/-- `ModelContext::subscribe` (from src): downgrade both sides to weak
references and insert an entry, keyed by the observed id, into the event
handler registry.  `eventTag` is the tag of `E::Event`, the type the stored
callback will downcast the payload back to. -/
def ModelContext.subscribe (app : AppContext) (selfId : EntityId) (observed : EntityId)
    (eventTag : TypeTag) (callbackId : Nat) : AppContext :=
  { app with
      eventHandlers :=
        app.eventHandlers ++ [(observed, ⟨selfId, observed, eventTag, callbackId⟩)] }

/-- `ModelContext::read_global` (from src, lines 158–163): resolve the
global via `self.app.global()` and invoke the read closure with it and with
`self` — the context whose state still holds the global; nothing is removed
from or restored to storage. -/
def ModelContext.read_global {R : Type} (app : AppContext) (tag : TypeTag)
    (read : Nat → AppContext → R) : Except Fatal R :=
  (app.global tag).map fun g => read g app

/-- `ModelContext::update_global` (from src, lines 165–173): pop the global
out of storage, run the update closure with mutable access to it and to the
context (whose state no longer holds the global), push the resulting value
back, and return the closure's result.  The closure returns the new global
value, the new state, and its result. -/
def ModelContext.update_global {R : Type} (app : AppContext) (tag : TypeTag)
    (f : Nat → AppContext → Nat × AppContext × R) : Except Fatal (R × AppContext) :=
  match app.pop_global tag with
  | .error e => .error e
  | .ok (g, app1) =>
    let (g2, app2, r) := f g app1
    .ok (r, app2.push_global tag g2)

/-!
Dispatch of the registered callbacks.  The boxed closures built by
`observe` and `subscribe` (from src, lines 53–60 and 76–84) are modelled as
functions of the registry entry; the user-supplied `on_notify` / `on_event`
bodies stay abstract and are passed in as parameters.
-/

/-- The boxed observer closure built by `ModelContext::observe` (from src):
upgrade both weak handles; when both are live, run `on_notify` inside an
update of the observing entity and report `true` (still valid); when either
is gone, report `false` (invalid) without touching anything.  `onNotify`
mutates the observing entity's value and the state. -/
def runObserver (onNotify : AnyVal → AppContext → AnyVal × AppContext)
    (app : AppContext) (e : ObserverEntry) : Except Fatal (Bool × AppContext) :=
  match WeakHandle.upgrade app e.thisId, WeakHandle.upgrade app e.observedId with
  | some _, some _ =>
    match app.update_entity e.thisId
        (fun v a => let (v2, a2) := onNotify v a; (v2, a2, ())) with
    | .ok (_, app1) => .ok (true, app1)
    | .error f => .error f
  | _, _ => .ok (false, app)

/-- The boxed subscriber closure built by `ModelContext::subscribe` (from
src): first downcast the type-erased payload back to `E::Event` — a tag
mismatch is the `expect("invalid event type")` panic, a fatal invariant
violation — then proceed exactly as the observer closure does, passing the
recovered event to `on_event`. -/
def runSubscriber (onEvent : AnyVal → AnyVal → AppContext → AnyVal × AppContext)
    (app : AppContext) (e : SubscriberEntry) (event : AnyVal) :
    Except Fatal (Bool × AppContext) :=
  if event.tag = e.eventTag then
    match WeakHandle.upgrade app e.thisId, WeakHandle.upgrade app e.observedId with
    | some _, some _ =>
      match app.update_entity e.thisId
          (fun v a => let (v2, a2) := onEvent v event a; (v2, a2, ())) with
      | .ok (_, app1) => .ok (true, app1)
      | .error f => .error f
    | _, _ => .ok (false, app)
  else .error .invalidEventType

/-- Run a snapshot of observer entries in registration order, threading the
state; returns the surviving (still valid) entries in order. -/
def runObservers (onNotify : AnyVal → AppContext → AnyVal × AppContext) :
    AppContext → List ObserverEntry → Except Fatal (AppContext × List ObserverEntry)
  | app, [] => .ok (app, [])
  | app, e :: rest =>
    match runObserver onNotify app e with
    | .error f => .error f
    | .ok (valid, app1) =>
      match runObservers onNotify app1 rest with
      | .error f => .error f
      | .ok (app2, survivors) =>
        .ok (app2, if valid then e :: survivors else survivors)

/-- Modelled from the spec: dispatch of a `Notify{emitter}` effect (§4.3,
§4.4): snapshot the observer entries registered for `emitter`
(snapshot-at-dispatch-time policy), invoke each in registration order, and
remove from the registry every callback that reported invalid; the flush
loop itself is not under `src/`. -/
def dispatchNotify (onNotify : AnyVal → AppContext → AnyVal × AppContext)
    (app : AppContext) (emitter : EntityId) : Except Fatal AppContext :=
  let snapshot := (app.observers.filter fun p => p.1 == emitter).map Prod.snd
  let app0 := { app with observers := app.observers.filter fun p => p.1 != emitter }
  match runObservers onNotify app0 snapshot with
  | .error f => .error f
  | .ok (app1, survivors) =>
    .ok { app1 with observers := app1.observers ++ survivors.map fun e => (emitter, e) }

/-!
The async/cross-thread bridge (from `async_context.rs`).  An
`AsyncAppContext` is a `Weak<Mutex<AppContext>>`; whether the weak
reference can still be upgraded is a fact about the world outside the
bridge value, modelled by `Option AppContext`: `none` when the runtime has
been fully dropped (upgrade fails), `some app` when it is alive with state
`app`.  Each bridge operation first attempts the upgrade, surfacing
`appWasReleased` when it fails, and otherwise locks and operates on the
state.  A mutating operation returns the state it leaves behind.
-/

/-- `AsyncAppContext::refresh` (from src): upgrade or fail with the
"app was released" condition, then `lock.refresh()`. -/
def AsyncAppContext.refresh (world : Option AppContext) :
    Except BridgeErr AppContext :=
  match world with
  | none => .error .appWasReleased
  | some app => .ok app.refresh

/-- `AsyncAppContext::entity` (from src): upgrade or fail, then
`lock.entity(build_entity)`. -/
def AsyncAppContext.entity (world : Option AppContext)
    (build : AppContext → EntityId → AnyVal × AppContext) :
    Except BridgeErr (EntityId × AppContext) :=
  match world with
  | none => .error .appWasReleased
  | some app => .ok (app.entity build)

/-- `AsyncAppContext::update_entity` (from src): upgrade or fail, then
`lock.update_entity(handle, update)` (whose own failure mode is a fatal
invariant violation, not a bridge error). -/
def AsyncAppContext.update_entity {R : Type} (world : Option AppContext) (id : EntityId)
    (f : AnyVal → AppContext → AnyVal × AppContext × R) :
    Except BridgeErr (Except Fatal (R × AppContext)) :=
  match world with
  | none => .error .appWasReleased
  | some app => .ok (app.update_entity id f)

/-- `AsyncAppContext::read_global` (from src): upgrade or fail, then
`lock.read_global(read)`. -/
def AsyncAppContext.read_global {R : Type} (world : Option AppContext) (tag : TypeTag)
    (read : Nat → AppContext → R) :
    Except BridgeErr (Except Fatal R) :=
  match world with
  | none => .error .appWasReleased
  | some app => .ok (ModelContext.read_global app tag read)

/-- `AsyncAppContext::update_global` (from src): upgrade or fail, then
`lock.update_global(update)`. -/
def AsyncAppContext.update_global {R : Type} (world : Option AppContext) (tag : TypeTag)
    (f : Nat → AppContext → Nat × AppContext × R) :
    Except BridgeErr (Except Fatal (R × AppContext)) :=
  match world with
  | none => .error .appWasReleased
  | some app => .ok (ModelContext.update_global app tag f)

/-- `AsyncAppContext::read_window` (from src): upgrade or fail, then route
the read through the window-specific entry point. -/
def AsyncAppContext.read_window {R : Type} (world : Option AppContext) (w : WindowId)
    (f : AppContext → WindowId → R) : Except BridgeErr R :=
  match world with
  | none => .error .appWasReleased
  | some app => app.read_window w f

/-- `AsyncAppContext::update_window` (from src): upgrade or fail, then
route the update through the window-specific entry point. -/
def AsyncAppContext.update_window {R : Type} (world : Option AppContext) (w : WindowId)
    (f : AppContext → WindowId → R × AppContext) : Except BridgeErr (R × AppContext) :=
  match world with
  | none => .error .appWasReleased
  | some app => app.update_window w f

/-- `AsyncAppContext.read_window` for window closures that may hit a fatal
invariant violation (the `read_global` routing below). -/
def AsyncAppContext.read_window_f {R : Type} (world : Option AppContext) (w : WindowId)
    (f : AppContext → WindowId → Except Fatal R) :
    Except BridgeErr (Except Fatal R) :=
  match world with
  | none => .error .appWasReleased
  | some app => app.read_window_f w f

/-- `AsyncAppContext.update_window` for window closures that may hit a
fatal invariant violation (the `update_entity` / `update_global` routings
below). -/
def AsyncAppContext.update_window_f {R : Type} (world : Option AppContext) (w : WindowId)
    (f : AppContext → WindowId → Except Fatal (R × AppContext)) :
    Except BridgeErr (Except Fatal (R × AppContext)) :=
  match world with
  | none => .error .appWasReleased
  | some app => app.update_window_f w f

/-- A scheduled task handle, abstracted to its id. -/
structure Task where
  id : Nat
deriving DecidableEq, Repr

/-- `AsyncAppContext::spawn` (from src): upgrade or fail, then
`app_context.spawn(f)` — scheduling of the future itself is outside this
core; only the returned task handle is modelled. -/
def AsyncAppContext.spawn (world : Option AppContext) (taskId : Nat) :
    Except BridgeErr Task :=
  match world with
  | none => .error .appWasReleased
  | some _ => .ok ⟨taskId⟩

/-- `AsyncWindowContext` (from src): an `AsyncAppContext` plus the window
identity it is scoped to. -/
structure AsyncWindowContext where
  app : Option AppContext
  window : WindowId

/-- `AsyncWindowContext::update` (from src):
`self.app.update_window(self.window, update)`. -/
def AsyncWindowContext.update {R : Type} (awc : AsyncWindowContext)
    (f : AppContext → WindowId → R × AppContext) : Except BridgeErr (R × AppContext) :=
  AsyncAppContext.update_window awc.app awc.window f

/-- `AsyncWindowContext::on_next_frame` (from src): route the registration
through `update_window`, then `.ok()` — the `Result` is converted to an
`Option` and dropped, so the function returns unit and on failure the world
is simply left as it was, the callback silently discarded.  The returned
value is the world state after the call; there is no error channel. -/
def AsyncWindowContext.on_next_frame (awc : AsyncWindowContext) (cb : Nat) :
    Option AppContext :=
  match AsyncAppContext.update_window awc.app awc.window
      (fun cx w => ((), cx.on_next_frame w cb)) with
  | .ok (_, app1) => some app1
  | .error _ => awc.app

/-- `AsyncWindowContext::refresh` (from src, `impl Context` lines 148–150):
delegates to `self.app.refresh()` — the app-level bridge refresh, not a
window-routed operation. -/
def AsyncWindowContext.refresh (awc : AsyncWindowContext) :
    Except BridgeErr AppContext :=
  AsyncAppContext.refresh awc.app

/-- `AsyncWindowContext::entity` (from src): routes through
`update_window`, building the entity inside the window's context. -/
def AsyncWindowContext.entity (awc : AsyncWindowContext)
    (build : AppContext → EntityId → AnyVal × AppContext) :
    Except BridgeErr (EntityId × AppContext) :=
  AsyncAppContext.update_window awc.app awc.window fun cx _w => cx.entity build

/-- `AsyncWindowContext::update_entity` (from src): routes through
`update_window`. -/
def AsyncWindowContext.update_entity {R : Type} (awc : AsyncWindowContext) (id : EntityId)
    (f : AnyVal → AppContext → AnyVal × AppContext × R) :
    Except BridgeErr (Except Fatal (R × AppContext)) :=
  AsyncAppContext.update_window_f awc.app awc.window fun cx _w => cx.update_entity id f

/-- `AsyncWindowContext::read_global` (from src): routes through
`read_window`. -/
def AsyncWindowContext.read_global {R : Type} (awc : AsyncWindowContext) (tag : TypeTag)
    (read : Nat → AppContext → R) : Except BridgeErr (Except Fatal R) :=
  AsyncAppContext.read_window_f awc.app awc.window
    fun cx _w => ModelContext.read_global cx tag read

/-- `AsyncWindowContext::update_global` (from src): routes through
`update_window`. -/
def AsyncWindowContext.update_global {R : Type} (awc : AsyncWindowContext) (tag : TypeTag)
    (f : Nat → AppContext → Nat × AppContext × R) :
    Except BridgeErr (Except Fatal (R × AppContext)) :=
  AsyncAppContext.update_window_f awc.app awc.window
    fun cx _w => ModelContext.update_global cx tag f

/-!
Theorems.  `appX` is a small concrete runtime state used to instantiate
the verified properties: two live entities (id 0 with one strong handle,
id 1 with two), one global of type tag 0 with value 7, one live window
with id 3, and empty queues and registries.
-/

/-- A concrete runtime state for instantiating the theorems. -/
def appX : AppContext where
  entities := [(0, ⟨some ⟨10, 5⟩, 1⟩), (1, ⟨some ⟨11, 9⟩, 2⟩)]
  nextId := 2
  globals := [(0, 7)]
  effects := []
  observers := []
  eventHandlers := []
  releaseHandlers := []
  windows := [3]
  frameCallbacks := []
  dirty := false

/-- C5: on an entity-scoped context with self-id `i`, `notify` appends
exactly one `Notify` effect with emitter `i` to the effect queue and `emit`
appends exactly one `Emit` effect with emitter `i` carrying the event (the
source offers `emit` only when the entity type declares an event payload
type); the record-update form of the right-hand sides shows every other
field of the runtime state is left untouched. -/
theorem notify_emit_enqueue_exactly_one (app : AppContext) (selfId : EntityId)
    (event : AnyVal) :
    ModelContext.notify app selfId =
      { app with effects := app.effects ++ [.notify selfId] } ∧
    ModelContext.emit app selfId event =
      { app with effects := app.effects ++ [.emit selfId event] } :=
  ⟨rfl, rfl⟩

/-- C1: every `AsyncAppContext` bridge operation (`refresh`, `entity`,
`update_entity`, `read_global`, `update_global`, `read_window`,
`update_window`, `spawn`), invoked when the weak reference to the runtime
can no longer be upgraded (`world = none`), returns the recoverable error
carrying the "app was released" condition; the result is an ordinary error
value (the functions are total), and with no runtime state in existence
nothing is mutated. -/
theorem async_bridge_released_recoverable :
    (AsyncAppContext.refresh none = .error .appWasReleased) ∧
    (∀ build, AsyncAppContext.entity none build = .error .appWasReleased) ∧
    (∀ (R : Type) (id : EntityId) (f : AnyVal → AppContext → AnyVal × AppContext × R),
        AsyncAppContext.update_entity none id f = .error .appWasReleased) ∧
    (∀ (R : Type) (tag : TypeTag) (read : Nat → AppContext → R),
        AsyncAppContext.read_global none tag read = .error .appWasReleased) ∧
    (∀ (R : Type) (tag : TypeTag) (f : Nat → AppContext → Nat × AppContext × R),
        AsyncAppContext.update_global none tag f = .error .appWasReleased) ∧
    (∀ (R : Type) (w : WindowId) (f : AppContext → WindowId → R),
        AsyncAppContext.read_window none w f = .error .appWasReleased) ∧
    (∀ (R : Type) (w : WindowId) (f : AppContext → WindowId → R × AppContext),
        AsyncAppContext.update_window none w f = .error .appWasReleased) ∧
    (∀ taskId, AsyncAppContext.spawn none taskId = .error .appWasReleased) ∧
    BridgeErr.appWasReleased.message = "app was released" :=
  ⟨rfl, fun _ => rfl, fun _ _ _ => rfl, fun _ _ _ => rfl, fun _ _ _ => rfl,
   fun _ _ _ => rfl, fun _ _ _ => rfl, fun _ => rfl, rfl⟩

/-- C3 counterexample: `ModelContext::read_global` does **not** remove the
global from storage before invoking the read closure — on the concrete
state `appX` (global of tag 0 present with value 7), a closure that probes
the context it is handed still finds the global present, so the claimed
absent-then-restore discipline does not hold for reads. -/
theorem read_global_closure_sees_global_present :
    ModelContext.read_global appX 0 (fun _g cx => (alookup cx.globals 0).isSome) =
      .ok true := rfl

/-- C3 amended: `ModelContext::read_global` resolves the global of type `G`
and invokes the closure with it and with the *unchanged* context — the
global stays in storage throughout; no removal or restoration occurs (the
remove-then-restore discipline applies only to `update_global`). -/
theorem read_global_direct_no_removal {R : Type} (app : AppContext) (tag : TypeTag)
    (read : Nat → AppContext → R) (g : Nat)
    (h : alookup app.globals tag = some g) :
    ModelContext.read_global app tag read = .ok (read g app) := by
  simp [ModelContext.read_global, AppContext.global, h, Except.map]

/-- Witness for the amended C3 theorem at the concrete state `appX`. -/
theorem read_global_direct_no_removal_witness :
    alookup appX.globals 0 = some 7 ∧
    ModelContext.read_global appX 0 (fun g _cx => g + 1) = .ok 8 :=
  ⟨rfl, read_global_direct_no_removal appX 0 (fun g _cx => g + 1) 7 rfl⟩

/-- C4: `ModelContext::update_global` removes the global of type `G` from
storage (the closure's context `app1` no longer holds it), invokes the
update closure with mutable access to the removed value, reinserts the
possibly mutated value, and returns exactly the closure's result; after the
call the global is present in storage again (with the mutated value). -/
theorem update_global_remove_invoke_restore {R : Type} (app : AppContext)
    (tag : TypeTag) (f : Nat → AppContext → Nat × AppContext × R) (g : Nat)
    (h : alookup app.globals tag = some g) :
    ∃ app1, app1 = { app with globals := aremove app.globals tag } ∧
      alookup app1.globals tag = none ∧
      ModelContext.update_global app tag f =
        .ok ((f g app1).2.2, (f g app1).2.1.push_global tag (f g app1).1) ∧
      alookup ((f g app1).2.1.push_global tag (f g app1).1).globals tag =
        some (f g app1).1 := by
  refine ⟨{ app with globals := aremove app.globals tag }, rfl, ?_, ?_, ?_⟩
  · exact alookup_aremove app.globals tag
  · simp only [ModelContext.update_global, AppContext.pop_global, h]
  · simp [AppContext.push_global]

/-- Witness for C4 at the concrete state `appX`: the closure doubles the
global and returns its old value; afterwards the global holds 14. -/
theorem update_global_remove_invoke_restore_witness :
    ∃ app1, app1 = { appX with globals := aremove appX.globals 0 } ∧
      alookup app1.globals 0 = none ∧
      ModelContext.update_global appX 0 (fun g a => (2 * g, a, g)) =
        .ok (((fun (g : Nat) (a : AppContext) => (2 * g, a, g)) 7 app1).2.2,
          ((fun (g : Nat) (a : AppContext) => (2 * g, a, g)) 7 app1).2.1.push_global 0
            ((fun (g : Nat) (a : AppContext) => (2 * g, a, g)) 7 app1).1) ∧
      alookup (((fun (g : Nat) (a : AppContext) => (2 * g, a, g)) 7 app1).2.1.push_global 0
          ((fun (g : Nat) (a : AppContext) => (2 * g, a, g)) 7 app1).1).globals 0 =
        some ((fun (g : Nat) (a : AppContext) => (2 * g, a, g)) 7 app1).1 :=
  update_global_remove_invoke_restore appX 0 (fun g a => (2 * g, a, g)) 7 rfl

/-- C2: during `update_entity` of an entity, the context handed to the
update closure has that entity's slot marked absent; a nested
`update_entity` reacquiring the same id through that context fails
deterministically with the absent-slot invariant violation instead of
observing or corrupting the slot.  The probe closure returns the context it
receives, so `seen` below is exactly the state visible to re-entrant code
inside the update. -/
theorem update_entity_reentrant_rejected {R : Type} (app : AppContext)
    (id : EntityId) (slot : EntitySlot) (v : AnyVal)
    (h1 : alookup app.entities id = some slot) (h2 : slot.value = some v)
    (g : AnyVal → AppContext → AnyVal × AppContext × R) :
    ∃ seen app1,
      app.update_entity id (fun w a => (w, a, a)) = .ok (seen, app1) ∧
      seen.update_entity id g = .error .absentSlot := by
  refine ⟨{ app with entities := setValue app.entities id none }, ?_, ?_, ?_⟩
  · exact { app with
      entities := setValue (setValue app.entities id none) id (some v) }
  · simp only [AppContext.update_entity, h1, h2, alookup_setValue, Option.map_some,
      Option.map_some']
  · simp only [AppContext.update_entity]
    have : alookup (setValue app.entities id none) id = some { slot with value := none } := by
      rw [alookup_setValue, h1]; rfl
    simp [this]

/-- Witness for C2 at the concrete state `appX`, entity 0. -/
theorem update_entity_reentrant_rejected_witness :
    ∃ seen app1,
      AppContext.update_entity appX 0 (fun w a => (w, a, a)) = .ok (seen, app1) ∧
      AppContext.update_entity seen 0 (fun w a => (w, a, (0 : Nat))) =
        .error .absentSlot :=
  update_entity_reentrant_rejected appX 0 ⟨some ⟨10, 5⟩, 1⟩ ⟨10, 5⟩ rfl rfl
    (fun w a => (w, a, (0 : Nat)))

/-- The observer closure reports invalid and touches nothing when either
weak handle fails to upgrade. -/
theorem runObserver_not_live (app : AppContext) (e : ObserverEntry)
    (h : ¬ (app.entityLive e.thisId ∧ app.entityLive e.observedId))
    (f : AnyVal → AppContext → AnyVal × AppContext) :
    runObserver f app e = .ok (false, app) := by
  unfold runObserver WeakHandle.upgrade
  by_cases h1 : app.entityLive e.thisId <;> by_cases h2 : app.entityLive e.observedId <;>
    simp_all

/-- The observer closure, when both weak handles upgrade, runs `on_notify`
inside an update of the observing entity and reports valid. -/
theorem runObserver_live (app : AppContext) (e : ObserverEntry)
    (h1 : app.entityLive e.thisId) (h2 : app.entityLive e.observedId)
    (f : AnyVal → AppContext → AnyVal × AppContext) :
    runObserver f app e =
      (app.update_entity e.thisId
          (fun v a => let (v2, a2) := f v a; (v2, a2, ()))).map
        (fun pr => (true, pr.2)) := by
  unfold runObserver WeakHandle.upgrade
  simp only [h1, h2, if_true]
  cases app.update_entity e.thisId
      (fun v a => let (v2, a2) := f v a; (v2, a2, ())) with
  | ok pr => simp [Except.map]
  | error fe => simp [Except.map]

/-- Dispatching a `Notify` for `emitter` whose sole registered observer is
invalid (one of its entities is gone) removes that entry from the registry
and leaves the rest of the state unchanged. -/
theorem dispatchNotify_single_invalid
    (f : AnyVal → AppContext → AnyVal × AppContext) (app : AppContext)
    (emitter : EntityId) (e : ObserverEntry)
    (hsnap : app.observers.filter (fun p => p.1 == emitter) = [(emitter, e)])
    (h : ¬ (app.entityLive e.thisId ∧ app.entityLive e.observedId)) :
    dispatchNotify f app emitter =
      .ok { app with observers := app.observers.filter fun p => p.1 != emitter } := by
  have h0 : ¬ (({ app with observers := app.observers.filter fun p => p.1 != emitter
      } : AppContext).entityLive e.thisId ∧
      ({ app with observers := app.observers.filter fun p => p.1 != emitter
      } : AppContext).entityLive e.observedId) := by
    simpa [AppContext.entityLive] using h
  simp only [dispatchNotify, hsnap, List.map_cons, List.map_nil, runObservers,
    runObserver_not_live _ _ h0]
  simp

/-- C6: for an observer callback registered via `observe`: dispatched on a
`Notify` effect it reports valid iff both the observing and the observed
entity still upgrade from their weak handles; if either is gone it reports
invalid without invoking `on_notify` (the result is the same for every
closure body, and the state is untouched); with both alive it invokes
`on_notify` inside an update of the observing entity; and an invalid
callback is removed from the registry by the dispatch. -/
theorem observer_callback_validity
    (onNotify : AnyVal → AppContext → AnyVal × AppContext)
    (app : AppContext) (e : ObserverEntry) (emitter : EntityId) :
    (∀ b app1, runObserver onNotify app e = .ok (b, app1) →
        (b = true ↔ (app.entityLive e.thisId ∧ app.entityLive e.observedId))) ∧
    (¬ (app.entityLive e.thisId ∧ app.entityLive e.observedId) →
        ∀ f, runObserver f app e = .ok (false, app)) ∧
    ((app.entityLive e.thisId ∧ app.entityLive e.observedId) →
        runObserver onNotify app e =
          (app.update_entity e.thisId
              (fun v a => let (v2, a2) := onNotify v a; (v2, a2, ()))).map
            (fun pr => (true, pr.2))) ∧
    (app.observers.filter (fun p => p.1 == emitter) = [(emitter, e)] →
      ¬ (app.entityLive e.thisId ∧ app.entityLive e.observedId) →
        dispatchNotify onNotify app emitter =
          .ok { app with observers := app.observers.filter fun p => p.1 != emitter }) := by
  refine ⟨?_, ?_, ?_, ?_⟩
  · intro b app1 hrun
    by_cases hl : app.entityLive e.thisId ∧ app.entityLive e.observedId
    · rw [runObserver_live app e hl.1 hl.2 onNotify] at hrun
      cases hup : app.update_entity e.thisId
          (fun v a => let (v2, a2) := onNotify v a; (v2, a2, ())) with
      | ok pr => rw [hup] at hrun; simp [Except.map] at hrun; simp [hrun.1, hl]
      | error fe => rw [hup] at hrun; simp [Except.map] at hrun
    · rw [runObserver_not_live app e hl onNotify] at hrun
      simp at hrun
      simp [hrun.1, hl]
  · intro hl f
    exact runObserver_not_live app e hl f
  · intro hl
    exact runObserver_live app e hl.1 hl.2 onNotify
  · intro hsnap hl
    exact dispatchNotify_single_invalid onNotify app emitter e hsnap hl

/-- Witness for C6: entity 0 of `appX` observing entity 5, which does not
exist — the callback reports invalid without running, and dispatching the
`Notify` removes the lone registered observer. -/
theorem observer_callback_validity_witness :
    runObserver (fun v a => (v, a)) appX ⟨0, 5, 4⟩ = .ok (false, appX) ∧
    dispatchNotify (fun v a => (v, a))
        { appX with observers := [(1, ⟨0, 5, 4⟩)] } 1 =
      .ok { appX with observers := [] } := by
  constructor
  · exact (observer_callback_validity (fun v a => (v, a)) appX ⟨0, 5, 4⟩ 1).2.1
      (by decide) (fun v a => (v, a))
  · exact (observer_callback_validity (fun v a => (v, a))
      { appX with observers := [(1, ⟨0, 5, 4⟩)] } ⟨0, 5, 4⟩ 1).2.2.2
      (by decide) (by decide)

/-- `update_entity` can only fail with the entity-store invariant
violations (`noSuchEntity`, `absentSlot`), never with the event-downcast
one. -/
theorem update_entity_ne_invalidEvent {R : Type} (app : AppContext) (id : EntityId)
    (f : AnyVal → AppContext → AnyVal × AppContext × R) :
    app.update_entity id f ≠ .error .invalidEventType := by
  unfold AppContext.update_entity
  cases h1 : alookup app.entities id with
  | none => simp
  | some slot =>
    cases h2 : slot.value with
    | none => simp [h2]
    | some v =>
      simp only [h2]
      cases alookup
          (f v { app with entities := setValue app.entities id none }).2.1.entities id <;>
        simp

/-- C7: the subscriber callback stored by `subscribe` first downcasts the
type-erased payload back to the event type `E::Event` the entity type `E`
declares.  When the payload's runtime tag matches the entry's declared
event tag — which is the case whenever the effect was emitted by an entity
of type `E`, since `emit` on such an entity boxes a value of `E::Event` and
`subscribe` registers the entry with that same tag (third conjunct) — the
downcast-failure branch is unreachable: the callback never produces the
`invalidEventType` fatal outcome.  On a mismatched tag the callback is
exactly that fatal invariant violation, not a recoverable result. -/
theorem subscriber_downcast_invariant
    (onEvent : AnyVal → AnyVal → AppContext → AnyVal × AppContext)
    (app : AppContext) (e : SubscriberEntry) (event : AnyVal) :
    (event.tag = e.eventTag →
        runSubscriber onEvent app e event ≠ .error .invalidEventType) ∧
    (event.tag ≠ e.eventTag →
        runSubscriber onEvent app e event = .error .invalidEventType) ∧
    (∀ selfId observed cbId,
        (ModelContext.subscribe app selfId observed e.eventTag cbId).eventHandlers =
          app.eventHandlers ++ [(observed, ⟨selfId, observed, e.eventTag, cbId⟩)]) := by
  refine ⟨?_, ?_, fun _ _ _ => rfl⟩
  · intro htag
    unfold runSubscriber
    rw [if_pos htag]
    cases WeakHandle.upgrade app e.thisId with
    | none => simp
    | some a =>
      cases WeakHandle.upgrade app e.observedId with
      | none => simp
      | some b =>
        cases hup : app.update_entity e.thisId
            (fun v a => let (v2, a2) := onEvent v event a; (v2, a2, ())) with
        | ok pr => simp
        | error fe =>
          simp only []
          intro hcon
          injection hcon with hfe
          subst hfe
          exact update_entity_ne_invalidEvent app e.thisId _ hup
  · intro htag
    unfold runSubscriber
    rw [if_neg htag]

/-- Witness for C7: a matching tag (entry and payload both tagged 2) never
hits the downcast failure; a mismatched payload (tag 3) is exactly the
fatal `invalidEventType` outcome. -/
theorem subscriber_downcast_invariant_witness :
    runSubscriber (fun v _ev a => (v, a)) appX ⟨0, 1, 2, 4⟩ ⟨2, 0⟩ ≠
      .error .invalidEventType ∧
    runSubscriber (fun v _ev a => (v, a)) appX ⟨0, 1, 2, 4⟩ ⟨3, 0⟩ =
      .error .invalidEventType :=
  ⟨(subscriber_downcast_invariant (fun v _ev a => (v, a)) appX ⟨0, 1, 2, 4⟩ ⟨2, 0⟩).1 rfl,
   (subscriber_downcast_invariant (fun v _ev a => (v, a)) appX ⟨0, 1, 2, 4⟩ ⟨3, 0⟩).2.1
     (by decide)⟩

/-- C8 counterexample: on the concrete state `appX` (whose only live window
has id 3), an `AsyncWindowContext` carrying window identity 5 — a window
that no longer exists — still performs `refresh` successfully, whereas the
window-routed form of the same operation fails with the window-not-found
error.  So `refresh`, one of the operations the claim quantifies over, is
not equivalent to routing through the window-specific entry point and does
not fail when the window is gone. -/
theorem asyncWindow_refresh_not_window_routed :
    (5 ∈ appX.windows ↔ False) ∧
    AsyncWindowContext.refresh ⟨some appX, 5⟩ = .ok { appX with dirty := true } ∧
    AsyncAppContext.update_window (some appX) 5 (fun cx _w => ((), cx.refresh)) =
      .error .windowNotFound := by
  refine ⟨by decide, rfl, ?_⟩
  simp only [AsyncAppContext.update_window, AppContext.update_window]
  rw [if_neg (by decide)]

/-- C8 amended: on an `AsyncWindowContext` carrying window identity `w`,
the Context operations `entity`, `update_entity` and `update_global` are
each equivalent to routing the corresponding window-context operation
through `AsyncAppContext`'s `update_window` entry point for `w`, and
`read_global` to routing through `read_window`; each of the four fails with
the recoverable window-not-found error if `w` no longer exists (and with
the app-released error if the runtime is gone).  `refresh` is the
exception: it delegates to the app-level bridge `refresh`, succeeding
regardless of whether `w` still exists. -/
theorem asyncWindow_ops_window_routed (awc : AsyncWindowContext) :
    (∀ build, awc.entity build =
        AsyncAppContext.update_window awc.app awc.window fun cx _w => cx.entity build) ∧
    (∀ (R : Type) (id : EntityId) (f : AnyVal → AppContext → AnyVal × AppContext × R),
        awc.update_entity id f =
          AsyncAppContext.update_window_f awc.app awc.window
            fun cx _w => cx.update_entity id f) ∧
    (∀ (R : Type) (tag : TypeTag) (read : Nat → AppContext → R),
        awc.read_global tag read =
          AsyncAppContext.read_window_f awc.app awc.window
            fun cx _w => ModelContext.read_global cx tag read) ∧
    (∀ (R : Type) (tag : TypeTag) (f : Nat → AppContext → Nat × AppContext × R),
        awc.update_global tag f =
          AsyncAppContext.update_window_f awc.app awc.window
            fun cx _w => ModelContext.update_global cx tag f) ∧
    (∀ app, awc.app = some app → awc.window ∉ app.windows →
        (∀ build, awc.entity build = .error .windowNotFound) ∧
        (∀ (R : Type) (id : EntityId) (f : AnyVal → AppContext → AnyVal × AppContext × R),
            awc.update_entity id f = .error .windowNotFound) ∧
        (∀ (R : Type) (tag : TypeTag) (read : Nat → AppContext → R),
            awc.read_global tag read = .error .windowNotFound) ∧
        (∀ (R : Type) (tag : TypeTag) (f : Nat → AppContext → Nat × AppContext × R),
            awc.update_global tag f = .error .windowNotFound)) ∧
    (∀ app, awc.app = some app → awc.refresh = .ok app.refresh) ∧
    (awc.app = none → awc.refresh = .error .appWasReleased) := by
  refine ⟨fun _ => rfl, fun _ _ _ => rfl, fun _ _ _ => rfl, fun _ _ _ => rfl,
    ?_, ?_, ?_⟩
  · intro app happ hw
    refine ⟨?_, ?_, ?_, ?_⟩
    · intro build
      simp [AsyncWindowContext.entity, AsyncAppContext.update_window, happ,
        AppContext.update_window, hw]
    · intro R id f
      simp [AsyncWindowContext.update_entity, AsyncAppContext.update_window_f, happ,
        AppContext.update_window_f, hw]
    · intro R tag read
      simp [AsyncWindowContext.read_global, AsyncAppContext.read_window_f, happ,
        AppContext.read_window_f, hw]
    · intro R tag f
      simp [AsyncWindowContext.update_global, AsyncAppContext.update_window_f, happ,
        AppContext.update_window_f, hw]
  · intro app happ
    simp [AsyncWindowContext.refresh, AsyncAppContext.refresh, happ]
  · intro happ
    simp [AsyncWindowContext.refresh, AsyncAppContext.refresh, happ]

/-- Witness for the amended C8 theorem: window 5 is gone from `appX`, so
the four window-routed operations fail recoverably, while `refresh` still
succeeds through the app-level path. -/
theorem asyncWindow_ops_window_routed_witness :
    (AsyncWindowContext.entity ⟨some appX, 5⟩ (fun a i => (⟨0, i⟩, a)) =
      .error .windowNotFound) ∧
    (AsyncWindowContext.update_global ⟨some appX, 5⟩ 0 (fun g a => (g, a, g)) =
      .error .windowNotFound) ∧
    (AsyncWindowContext.refresh ⟨some appX, 5⟩ = .ok appX.refresh) := by
  have h := asyncWindow_ops_window_routed ⟨some appX, 5⟩
  refine ⟨(h.2.2.2.2.1 appX rfl (by decide)).1 (fun a i => (⟨0, i⟩, a)),
    (h.2.2.2.2.1 appX rfl (by decide)).2.2.2 Nat 0 (fun g a => (g, a, g)),
    h.2.2.2.2.2.1 appX rfl⟩

/-- C9: `AsyncWindowContext::on_next_frame` returns unit — its result type
has no error channel — and converts the routing failure to a silent no-op:
with the runtime released, or with the window gone, the world is left
exactly as it was and the frame callback is dropped, while the sibling
bridge operation `update` surfaces those same conditions as recoverable
errors; only with the runtime alive and the window present is the callback
registered. -/
theorem on_next_frame_silently_discards (awc : AsyncWindowContext) (cb : Nat) :
    (awc.app = none →
        awc.on_next_frame cb = none ∧
        ∀ (R : Type) (f : AppContext → WindowId → R × AppContext),
          awc.update f = .error .appWasReleased) ∧
    (∀ app, awc.app = some app → awc.window ∉ app.windows →
        awc.on_next_frame cb = some app ∧
        ∀ (R : Type) (f : AppContext → WindowId → R × AppContext),
          awc.update f = .error .windowNotFound) ∧
    (∀ app, awc.app = some app → awc.window ∈ app.windows →
        awc.on_next_frame cb = some (app.on_next_frame awc.window cb)) := by
  refine ⟨?_, ?_, ?_⟩
  · intro happ
    refine ⟨?_, ?_⟩
    · simp [AsyncWindowContext.on_next_frame, AsyncAppContext.update_window, happ]
    · intro R f
      simp [AsyncWindowContext.update, AsyncAppContext.update_window, happ]
  · intro app happ hw
    refine ⟨?_, ?_⟩
    · simp [AsyncWindowContext.on_next_frame, AsyncAppContext.update_window, happ,
        AppContext.update_window, hw]
    · intro R f
      simp [AsyncWindowContext.update, AsyncAppContext.update_window, happ,
        AppContext.update_window, hw]
  · intro app happ hw
    simp [AsyncWindowContext.on_next_frame, AsyncAppContext.update_window, happ,
      AppContext.update_window, hw]

/-- Witness for C9: with window 5 absent from `appX`, `on_next_frame`
silently leaves the world as it was while `update` fails recoverably. -/
theorem on_next_frame_silently_discards_witness :
    AsyncWindowContext.on_next_frame ⟨some appX, 5⟩ 4 = some appX ∧
    AsyncWindowContext.update ⟨some appX, 5⟩ (fun a _w => ((0 : Nat), a)) =
      .error .windowNotFound :=
  ⟨((on_next_frame_silently_discards ⟨some appX, 5⟩ 4).2.1 appX rfl (by decide)).1,
   ((on_next_frame_silently_discards ⟨some appX, 5⟩ 4).2.1 appX rfl (by decide)).2
     Nat (fun a _w => ((0 : Nat), a))⟩

/-- C10: `observe` and `subscribe` capture only weak (downgraded) handles:
registering leaves the entity store — and with it every strong-handle
count — unchanged; a registration alone keeps nothing alive, so dropping
the last strong handle of the observed entity after registering still
releases it; and every dispatch re-validates liveness by upgrading both
weak handles, reporting invalid without running the callback when either
side is gone. -/
theorem subscriptions_hold_only_weak (app : AppContext)
    (selfId observed : EntityId) (etag : TypeTag) (cbId : Nat) :
    ((ModelContext.observe app selfId observed cbId).entities = app.entities) ∧
    ((ModelContext.subscribe app selfId observed etag cbId).entities = app.entities) ∧
    (∀ slot, alookup app.entities observed = some slot → slot.refCount ≤ 1 →
        ((ModelContext.observe app selfId observed cbId).dropHandle observed).entityLive
          observed = false) ∧
    (∀ f app1, app1.entityLive selfId = false ∨ app1.entityLive observed = false →
        runObserver f app1 ⟨selfId, observed, cbId⟩ = .ok (false, app1)) ∧
    (∀ f app1 ev, app1.entityLive selfId = false ∨ app1.entityLive observed = false →
        runSubscriber f app1 ⟨selfId, observed, etag, cbId⟩ ev =
          if ev.tag = etag then .ok (false, app1) else .error .invalidEventType) := by
  refine ⟨rfl, rfl, ?_, ?_, ?_⟩
  · intro slot hslot hrc
    simp [ModelContext.observe, AppContext.dropHandle, hslot, hrc,
      AppContext.entityLive, alookup_aremove]
  · intro f app1 hdead
    unfold runObserver WeakHandle.upgrade
    rcases hdead with h | h <;> simp [h]
  · intro f app1 ev hdead
    unfold runSubscriber WeakHandle.upgrade
    by_cases htag : ev.tag = etag
    · rcases hdead with h | h <;> simp [htag, h]
    · simp [htag]

/-- Witness for C10: entity 1 of `appX` observes entity 0 (which has a
single strong handle); registering does not change the store, dropping that
handle releases entity 0 despite the registration, and dispatch against a
state where entity 0 is gone reports invalid. -/
theorem subscriptions_hold_only_weak_witness :
    ((ModelContext.observe appX 1 0 4).entities = appX.entities) ∧
    (((ModelContext.observe appX 1 0 4).dropHandle 0).entityLive 0 = false) ∧
    (runObserver (fun v a => (v, a))
        { appX with entities := aremove appX.entities 0 } ⟨1, 0, 4⟩ =
      .ok (false, { appX with entities := aremove appX.entities 0 })) := by
  have h := subscriptions_hold_only_weak appX 1 0 2 4
  refine ⟨h.1, h.2.2.1 ⟨some ⟨10, 5⟩, 1⟩ rfl (by decide), ?_⟩
  exact h.2.2.2.1 (fun v a => (v, a))
    { appX with entities := aremove appX.entities 0 } (Or.inr (by decide))

end Gpui
